import Mathlib

/-!
Shallow embedding of the FastAPI CRUD service of this repository
(src/app/main.py and src/app/models.py): the `users` and `todos` tables with
their four handlers each, the root endpoint, and the Feedback/Contact
validation models with their blocklist pattern.
-/

namespace App

/-- Input model `UserCreate` (models.py): `username : str`, `email : str` and no
further constraints — in particular no minimum length on `username`. -/
structure UserCreate where
  username : String
  email : String
deriving DecidableEq

/-- Output model `UserReturn` (models.py): the input fields plus `id : int`. -/
structure UserReturn where
  id : Int
  username : String
  email : String
deriving DecidableEq

/-- Input model `Todo` (models.py): `title`, `description` and the boolean flag
`is_complited` (defaulting to false at the validation layer). -/
structure Todo where
  title : String
  description : String
  is_complited : Bool
deriving DecidableEq

/-- Output model `TodoReturn` (models.py): the input fields plus `id : int`. -/
structure TodoReturn where
  id : Int
  title : String
  description : String
  is_complited : Bool
deriving DecidableEq

/-- A row of the `users` table: `users(id, username, email)`. -/
structure UserRow where
  id : Int
  username : String
  email : String
deriving DecidableEq

/-- The `users` table: its rows plus the id the auto-assigned primary key gives
to the next inserted row. -/
structure UsersDb where
  rows : List UserRow
  nextId : Int
deriving DecidableEq

/-- A row of the `todos` table: `todos(id, title, description, is_complited)`. -/
structure TodoRow where
  id : Int
  title : String
  description : String
  is_complited : Bool
deriving DecidableEq

/-- The `todos` table. -/
structure TodosDb where
  rows : List TodoRow
  nextId : Int
deriving DecidableEq

/-- A handler outcome as the HTTP surface reports it: a 200 body, a 404 detail,
a 422 validation error or a 500 detail. -/
inductive Response (α : Type) where
  | ok (body : α)
  | notFound (detail : String)
  | validationFailed (detail : String)
  | internalError (detail : String)
deriving DecidableEq

/-- Python truthiness of the value `database.execute` yields for a statement
with `RETURNING id`: both `None` (no row matched) and the integer `0` are
falsy; the handlers test `if not result`. -/
def intTruthy : Option Int → Bool
  | none => false
  | some v => v != 0

/-- Detail string of the 404 responses of `get_user`, `update_user`,
`delete_user` (main.py). -/
def userNotFoundDetail : String := "Пользователь с указанным ID не найден"

/-- Body message of a successful `delete_user` (main.py). -/
def userDeletedMsg : String := "Пользователь успешно удален"

/-- Detail string of the 404 responses of `get_todo` and `update_todo`. -/
def todoNotFoundDetail : String := "Задача с указанным ID не найдена"

/-- Detail string of the 404 response of `delete_todo` (lowercase id there). -/
def todoDeleteNotFoundDetail : String := "Задача с указанным id не найдена"

/-- Body message of a successful `delete_todo` (main.py). -/
def todoDeletedMsg : String := "Задача успешно удалена"

/-- `INSERT INTO users (username, email) VALUES (:username, :email) RETURNING id`:
appends a row under the next primary-key value and yields that id. -/
def insertUserSql (db : UsersDb) (username email : String) : UsersDb × Int :=
  ({ rows := db.rows ++ [⟨db.nextId, username, email⟩], nextId := db.nextId + 1 },
   db.nextId)

/-- `SELECT id, username, email FROM users WHERE id = :user_id`, fetched with
`fetch_one`: the first row whose id matches, if any. -/
def selectUserSql (db : UsersDb) (uid : Int) : Option UserRow :=
  db.rows.find? fun r => r.id == uid

/-- `UPDATE users SET username = :username, email = :email WHERE id = :user_id
RETURNING id`: rewrites every matching row and yields the matched id, or an
empty result when no row matched. -/
def updateUserSql (db : UsersDb) (uid : Int) (username email : String) :
    UsersDb × Option Int :=
  ({ db with rows := db.rows.map fun r =>
      if r.id == uid then { r with username := username, email := email } else r },
   if db.rows.any (fun r => r.id == uid) then some uid else none)

/-- `DELETE FROM users WHERE id = :user_id RETURNING id`: removes every matching
row and yields the matched id, or an empty result when no row matched. -/
def deleteUserSql (db : UsersDb) (uid : Int) : UsersDb × Option Int :=
  ({ db with rows := db.rows.filter fun r => r.id != uid },
   if db.rows.any (fun r => r.id == uid) then some uid else none)

/-- `create_user` (main.py): run the insert, then respond with the input fields
plus the id the statement returned. -/
def create_user (db : UsersDb) (user : UserCreate) : UsersDb × Response UserReturn :=
  let res := insertUserSql db user.username user.email
  (res.1, .ok ⟨res.2, user.username, user.email⟩)

/-- `get_user` (main.py): fetch one row by id; an empty result is a 404. -/
def get_user (db : UsersDb) (user_id : Int) : Response UserReturn :=
  match selectUserSql db user_id with
  | none => .notFound userNotFoundDetail
  | some r => .ok ⟨r.id, r.username, r.email⟩

/-- `update_user` (main.py): run the update; `if not result` raises the 404;
otherwise the response id is the value the statement returned (`id = result`). -/
def update_user (db : UsersDb) (user_id : Int) (user : UserCreate) :
    UsersDb × Response UserReturn :=
  let res := updateUserSql db user_id user.username user.email
  if !(intTruthy res.2) then (res.1, .notFound userNotFoundDetail)
  else (res.1, .ok ⟨res.2.getD 0, user.username, user.email⟩)

/-- `delete_user` (main.py): run the delete; `if not deleted_id` raises the 404;
otherwise respond with the fixed success message. -/
def delete_user (db : UsersDb) (user_id : Int) : UsersDb × Response String :=
  let res := deleteUserSql db user_id
  if !(intTruthy res.2) then (res.1, .notFound userNotFoundDetail)
  else (res.1, .ok userDeletedMsg)

/-- `INSERT INTO todos(title, description, is_complited) VALUES (...) RETURNING id`. -/
def insertTodoSql (db : TodosDb) (title description : String) (flag : Bool) :
    TodosDb × Int :=
  ({ rows := db.rows ++ [⟨db.nextId, title, description, flag⟩], nextId := db.nextId + 1 },
   db.nextId)

/-- `SELECT id, title, description, is_complited FROM todos WHERE id = :todo_id`. -/
def selectTodoSql (db : TodosDb) (tid : Int) : Option TodoRow :=
  db.rows.find? fun r => r.id == tid

/-- `UPDATE todos SET title = ..., description = ..., is_complited = ...
WHERE id = :todo_id RETURNING id`. -/
def updateTodoSql (db : TodosDb) (tid : Int) (title description : String) (flag : Bool) :
    TodosDb × Option Int :=
  ({ db with rows := db.rows.map fun r =>
      if r.id == tid then { r with title := title, description := description,
                                   is_complited := flag } else r },
   if db.rows.any (fun r => r.id == tid) then some tid else none)

/-- `DELETE FROM todos WHERE id = :todo_id RETURNING id`. -/
def deleteTodoSql (db : TodosDb) (tid : Int) : TodosDb × Option Int :=
  ({ db with rows := db.rows.filter fun r => r.id != tid },
   if db.rows.any (fun r => r.id == tid) then some tid else none)

/-- `create_todo` (main.py). -/
def create_todo (db : TodosDb) (todo : Todo) : TodosDb × Response TodoReturn :=
  let res := insertTodoSql db todo.title todo.description todo.is_complited
  (res.1, .ok ⟨res.2, todo.title, todo.description, todo.is_complited⟩)

/-- `get_todo` (main.py). -/
def get_todo (db : TodosDb) (todo_id : Int) : Response TodoReturn :=
  match selectTodoSql db todo_id with
  | none => .notFound todoNotFoundDetail
  | some r => .ok ⟨r.id, r.title, r.description, r.is_complited⟩

/-- `update_todo` (main.py): same shape as `update_user`. -/
def update_todo (db : TodosDb) (todo_id : Int) (todo : Todo) :
    TodosDb × Response TodoReturn :=
  let res := updateTodoSql db todo_id todo.title todo.description todo.is_complited
  if !(intTruthy res.2) then (res.1, .notFound todoNotFoundDetail)
  else (res.1, .ok ⟨res.2.getD 0, todo.title, todo.description, todo.is_complited⟩)

/-- `delete_todo` (main.py). -/
def delete_todo (db : TodosDb) (todo_id : Int) : TodosDb × Response String :=
  let res := deleteTodoSql db todo_id
  if !(intTruthy res.2) then (res.1, .notFound todoDeleteNotFoundDetail)
  else (res.1, .ok todoDeletedMsg)

/-- Pydantic validation of a `UserCreate` body: both fields are required and must
be strings; nothing more is checked, so the empty string is a valid `username`. -/
def validateUserCreate (username email : Option String) : Except String UserCreate :=
  match username, email with
  | some u, some e => .ok ⟨u, e⟩
  | _, _ => .error "field required"

/-- `POST /users/` as the framework runs it: body validation first (422 on
failure), then the `create_user` handler. -/
def handleCreateUser (db : UsersDb) (username email : Option String) :
    UsersDb × Response UserReturn :=
  match validateUserCreate username email with
  | .error e => (db, .validationFailed e)
  | .ok user => create_user db user

/-- `PUT /users/{user_id}` as the framework runs it: the body is validated into
a `UserCreate` (422 on failure), then the `update_user` handler runs. -/
def handleUpdateUser (db : UsersDb) (user_id : Int) (username email : Option String) :
    UsersDb × Response UserReturn :=
  match validateUserCreate username email with
  | .error e => (db, .validationFailed e)
  | .ok user => update_user db user_id user

/-- `read_root` (main.py): the literal body of `GET /` as key-value pairs. The
key written in the source is the string "message: ", colon and blank included. -/
def read_root : List (String × String) := [("message: ", "Hello, World!")]

/-- Lowercasing as the case-insensitive pattern of `validate_message` sees the
characters that can occur in it: uppercase Cyrillic А..Я and ASCII A..Z map to
their lowercase forms, every other character stays. -/
def ruLower (c : Char) : Char :=
  if 'А' ≤ c && c ≤ 'Я' then Char.ofNat (c.toNat + 32)
  else if 'A' ≤ c && c ≤ 'Z' then Char.ofNat (c.toNat + 32)
  else c

/-- The character class `[а-я]` of the blocklist pattern, on lowered text. -/
def isLowerRu (c : Char) : Bool := 'а' ≤ c && c ≤ 'я'

/-- The three stems of the pattern in `Feedback.validate_message` (models.py):
`редиск`, `бяк`, `козявк`. -/
def blockedStems : List (List Char) :=
  ["редиск".toList, "бяк".toList, "козявк".toList]

/-- Each alternative of the pattern requires one more `[а-я]` letter directly
after its stem; this tests the rest of the text for that letter. -/
def followCyr : List Char → Bool
  | c :: _ => isLowerRu c
  | [] => false

/-- One alternative of the pattern (stem `st` plus `[а-я]`) matches the lowered
text `t` at position `i`. -/
def stemMatchAt (t st : List Char) (i : Nat) : Bool :=
  ((t.drop i).take st.length == st) && followCyr ((t.drop i).drop st.length)

/-- `re.findall(r'(?i)редиск[а-я]|бяк[а-я]|козявк[а-я]', data)` is nonempty:
some alternative matches at some position of the lowered text. -/
def hasBlockedWord (t : List Char) : Bool :=
  (List.range t.length).any fun i => blockedStems.any fun st => stemMatchAt t st i

/-- `Feedback.validate_message` (models.py): reject when the pattern matches
somewhere, keep the message otherwise. -/
def validate_message (data : List Char) : Except String (List Char) :=
  if hasBlockedWord (data.map ruLower) then .error "Использование недопустимых слов"
  else .ok data

/-- The `message` field of `Feedback` passes validation: the
`Field(min_length=10, max_length=500)` bounds plus the `validate_message`
validator (length counted in characters, as Python len counts code points). -/
def feedbackMessageAccepted (msg : List Char) : Bool :=
  decide (10 ≤ msg.length) && decide (msg.length ≤ 500) &&
    (match validate_message msg with | .ok _ => true | .error _ => false)

/-- A blocked stem occurs in the message, case-insensitively, stated the way the
spec reads it: a plain substring occurrence with no condition on what follows. -/
def ContainsStemCI (msg : List Char) : Prop :=
  ∃ st ∈ blockedStems, ∃ l r, msg.map ruLower = l ++ st ++ r

/-- A blocked stem occurs and is immediately followed by one more Cyrillic
letter `[а-я]` (case-insensitively): what the pattern actually requires. -/
def StemFollowedOccurs (msg : List Char) : Prop :=
  ∃ st ∈ blockedStems, ∃ l c r, isLowerRu c = true ∧
    msg.map ruLower = l ++ st ++ c :: r

/-- Plain scan for a stem with no condition on the following character;
decidable companion of `ContainsStemCI`. -/
def containsStemB (t : List Char) : Bool :=
  (List.range t.length).any fun i => blockedStems.any fun st =>
    (t.drop i).take st.length == st

/-- The `phone` pattern of `Contact` (models.py): the anchored regex
`^\d{7,15}$`, i.e. 7 to 15 digits and nothing else (digits modelled as ASCII). -/
def phonePatternMatches (s : List Char) : Bool :=
  s.all Char.isDigit && decide (7 ≤ s.length) && decide (s.length ≤ 15)

/-- Validation of the optional `phone` field of `Contact`: an absent value is
accepted (default None), a present one must match the pattern. -/
def contactPhoneOk : Option (List Char) → Bool
  | none => true
  | some s => phonePatternMatches s

/-- A well-formed users table: every stored id is below the next assigned id,
as an auto-assigned primary key guarantees. -/
def UsersDb.WF (db : UsersDb) : Prop := ∀ r ∈ db.rows, r.id < db.nextId

/-!
Helper lemmas: the correspondence between the position-by-position scan of the
blocklist pattern and substring occurrences, and small facts about the
update/delete handlers.
-/

/-- Scanning for `pat` at some position of `t`, with condition `Q` on the rest
of the text, succeeds exactly when `t` splits around an occurrence of `pat`
whose tail satisfies `Q`. -/
theorem scan_iff_parts (t pat : List Char) (hpat : pat ≠ []) (Q : List Char → Bool) :
    ((List.range t.length).any fun i =>
        ((t.drop i).take pat.length == pat) && Q ((t.drop i).drop pat.length)) = true ↔
      ∃ l r, t = l ++ pat ++ r ∧ Q r = true := by
  constructor
  · intro h
    rcases List.any_eq_true.mp h with ⟨i, _, hp⟩
    simp only [Bool.and_eq_true] at hp
    rcases hp with ⟨h1, h2⟩
    have h1e : (t.drop i).take pat.length = pat := eq_of_beq h1
    refine ⟨t.take i, (t.drop i).drop pat.length, ?_, h2⟩
    have hsplit : t.drop i = pat ++ (t.drop i).drop pat.length := by
      conv_lhs => rw [← List.take_append_drop pat.length (t.drop i)]
      rw [h1e]
    calc t = t.take i ++ t.drop i := (List.take_append_drop i t).symm
      _ = t.take i ++ (pat ++ (t.drop i).drop pat.length) := by rw [← hsplit]
      _ = t.take i ++ pat ++ (t.drop i).drop pat.length := by rw [List.append_assoc]
  · rintro ⟨l, r, ht, hQ⟩
    apply List.any_eq_true.mpr
    refine ⟨l.length, List.mem_range.mpr ?_, ?_⟩
    · have hlen : pat.length ≠ 0 := fun h0 => hpat (List.eq_nil_of_length_eq_zero h0)
      subst ht
      simp [List.length_append]
      omega
    · have hd : t.drop l.length = pat ++ r := by
        subst ht
        rw [List.append_assoc, List.drop_left]
      rw [hd, List.take_left, List.drop_left]
      simp [hQ]

/-- None of the three blocked stems is empty. -/
theorem blockedStems_ne_nil : ∀ st ∈ blockedStems, st ≠ [] := by decide

/-- The blocklist pattern matches the lowered text `t` iff a stem occurs in `t`
with one more `[а-я]` letter right after it. -/
theorem hasBlockedWord_iff (t : List Char) :
    hasBlockedWord t = true ↔
      ∃ st ∈ blockedStems, ∃ l c r, isLowerRu c = true ∧ t = l ++ st ++ c :: r := by
  unfold hasBlockedWord
  constructor
  · intro h
    rcases List.any_eq_true.mp h with ⟨i, hi, hp⟩
    rcases List.any_eq_true.mp hp with ⟨st, hst, hm⟩
    have hscan : ((List.range t.length).any fun j =>
        ((t.drop j).take st.length == st) && followCyr ((t.drop j).drop st.length)) = true :=
      List.any_eq_true.mpr ⟨i, hi, hm⟩
    rcases (scan_iff_parts t st (blockedStems_ne_nil st hst) followCyr).mp hscan
      with ⟨l, r, ht, hQ⟩
    cases r with
    | nil => simp [followCyr] at hQ
    | cons c rest => exact ⟨st, hst, l, c, rest, hQ, ht⟩
  · rintro ⟨st, hst, l, c, r, hc, ht⟩
    have hscan := (scan_iff_parts t st (blockedStems_ne_nil st hst) followCyr).mpr
      ⟨l, c :: r, ht, hc⟩
    rcases List.any_eq_true.mp hscan with ⟨i, hi, hm⟩
    exact List.any_eq_true.mpr ⟨i, hi, List.any_eq_true.mpr ⟨st, hst, hm⟩⟩

/-- The plain stem scan succeeds iff a stem occurs as a substring. -/
theorem containsStemB_iff (t : List Char) :
    containsStemB t = true ↔ ∃ st ∈ blockedStems, ∃ l r, t = l ++ st ++ r := by
  unfold containsStemB
  constructor
  · intro h
    rcases List.any_eq_true.mp h with ⟨i, hi, hp⟩
    rcases List.any_eq_true.mp hp with ⟨st, hst, hm⟩
    have hm2 : (((t.drop i).take st.length == st)
        && (fun _ => true) ((t.drop i).drop st.length)) = true := by
      simp only [Bool.and_true]
      exact hm
    have hscan : ((List.range t.length).any fun j =>
        ((t.drop j).take st.length == st) && (fun _ => true) ((t.drop j).drop st.length)) = true :=
      List.any_eq_true.mpr ⟨i, hi, hm2⟩
    rcases (scan_iff_parts t st (blockedStems_ne_nil st hst) (fun _ => true)).mp hscan
      with ⟨l, r, ht, _⟩
    exact ⟨st, hst, l, r, ht⟩
  · rintro ⟨st, hst, l, r, ht⟩
    have hscan := (scan_iff_parts t st (blockedStems_ne_nil st hst) (fun _ => true)).mpr
      ⟨l, r, ht, rfl⟩
    rcases List.any_eq_true.mp hscan with ⟨i, hi, hm⟩
    simp only [Bool.and_true] at hm
    exact List.any_eq_true.mpr ⟨i, hi, List.any_eq_true.mpr ⟨st, hst, hm⟩⟩

/-- A stem occurrence with a following letter is in particular a stem occurrence. -/
theorem stemFollowed_containsStem (msg : List Char) (h : StemFollowedOccurs msg) :
    ContainsStemCI msg := by
  rcases h with ⟨st, hst, l, c, r, _, ht⟩
  exact ⟨st, hst, l, c :: r, ht⟩

/-- A negative plain scan refutes any substring occurrence of a stem. -/
theorem not_containsStem_of_scan (msg : List Char)
    (h : containsStemB (msg.map ruLower) = false) : ¬ ContainsStemCI msg := by
  intro hc
  rcases hc with ⟨st, hst, l, r, ht⟩
  have := (containsStemB_iff (msg.map ruLower)).mpr ⟨st, hst, l, r, ht⟩
  rw [h] at this
  exact Bool.false_ne_true this

/-- First component of an if-then-else of two pairs sharing their first component. -/
theorem fst_ite_pair {α β : Type} (c : Prop) [Decidable c] (a : α) (x y : β) :
    (if c then (a, x) else (a, y)).1 = a := by
  split <;> rfl

/-- Whatever `delete_user` responds, the resulting table is the filtered one:
the DELETE statement has run before the truthiness check. -/
theorem delete_user_state (db : UsersDb) (uid : Int) :
    (delete_user db uid).1 = { db with rows := db.rows.filter fun r => r.id != uid } := by
  unfold delete_user
  rw [fst_ite_pair]
  rfl

/-- A successful `update_user` responded with the matched id (which the WHERE
clause forces to equal the path id) and the submitted fields. -/
theorem update_user_ok_id (db db2 : UsersDb) (uid : Int) (user : UserCreate)
    (r : UserReturn) (h : update_user db uid user = (db2, Response.ok r)) :
    r = ⟨uid, user.username, user.email⟩ := by
  simp only [update_user] at h
  cases hany : (db.rows.any fun x => x.id == uid) with
  | false =>
    rw [show (updateUserSql db uid user.username user.email).2 = none from by
      unfold updateUserSql; exact if_neg (by rw [hany]; simp)] at h
    simp [intTruthy] at h
  | true =>
    rw [show (updateUserSql db uid user.username user.email).2 = some uid from by
      unfold updateUserSql; exact if_pos hany] at h
    by_cases h0 : uid = 0
    · subst h0
      simp [intTruthy] at h
    · have hne : (uid != 0) = true := by simpa using h0
      simp only [intTruthy, hne, Bool.not_true, Bool.false_eq_true, if_false,
        Option.getD_some, Prod.mk.injEq, Response.ok.injEq] at h
      exact h.2.symm

/-- A successful `update_todo` responded with the matched id and the submitted
fields, exactly as `update_user` does. -/
theorem update_todo_ok_id (db db2 : TodosDb) (tid : Int) (todo : Todo)
    (r : TodoReturn) (h : update_todo db tid todo = (db2, Response.ok r)) :
    r = ⟨tid, todo.title, todo.description, todo.is_complited⟩ := by
  simp only [update_todo] at h
  cases hany : (db.rows.any fun x => x.id == tid) with
  | false =>
    rw [show (updateTodoSql db tid todo.title todo.description todo.is_complited).2 = none from by
      unfold updateTodoSql; exact if_neg (by rw [hany]; simp)] at h
    simp [intTruthy] at h
  | true =>
    rw [show (updateTodoSql db tid todo.title todo.description todo.is_complited).2 = some tid from by
      unfold updateTodoSql; exact if_pos hany] at h
    by_cases h0 : tid = 0
    · subst h0
      simp [intTruthy] at h
    · have hne : (tid != 0) = true := by simpa using h0
      simp only [intTruthy, hne, Bool.not_true, Bool.false_eq_true, if_false,
        Option.getD_some, Prod.mk.injEq, Response.ok.injEq] at h
      exact h.2.symm

/-!
Claim theorems.
-/

/-- C1: for every valid user input, a successful create followed by a read on
the id the create returned yields a record equal to the input fields plus that
assigned id (on any well-formed table). -/
theorem user_create_then_read (db : UsersDb) (user : UserCreate) (h : db.WF) :
    ∃ uid db2,
      create_user db user = (db2, Response.ok ⟨uid, user.username, user.email⟩) ∧
      get_user db2 uid = Response.ok ⟨uid, user.username, user.email⟩ := by
  refine ⟨db.nextId,
    ⟨db.rows ++ [⟨db.nextId, user.username, user.email⟩], db.nextId + 1⟩, rfl, ?_⟩
  have hn : db.rows.find? (fun r => r.id == db.nextId) = none :=
    List.find?_eq_none.mpr (fun r hr => by
      have hlt := h r hr
      simp only [beq_iff_eq]
      omega)
  have hfind : (db.rows ++ [(⟨db.nextId, user.username, user.email⟩ : UserRow)]).find?
      (fun r => r.id == db.nextId) = some ⟨db.nextId, user.username, user.email⟩ := by
    rw [List.find?_append, hn]
    simp [List.find?]
  unfold get_user selectUserSql
  rw [hfind]

/-- C1 witness: the round trip at the empty table and the input
(alice, a@example.com). -/
theorem user_create_then_read_w :
    ∃ uid db2,
      create_user ⟨[], 1⟩ ⟨"alice", "a@example.com"⟩ =
        (db2, Response.ok ⟨uid, "alice", "a@example.com"⟩) ∧
      get_user db2 uid = Response.ok ⟨uid, "alice", "a@example.com"⟩ :=
  user_create_then_read ⟨[], 1⟩ ⟨"alice", "a@example.com"⟩ (fun r hr => by simp at hr)

/-- C2: on an id with no matching row, read, update and delete — for users and
for todos alike — each respond NotFound with the 404 detail string, never a
storage or internal error. -/
theorem missing_id_not_found (udb : UsersDb) (tdb : TodosDb) (uid tid : Int)
    (user : UserCreate) (todo : Todo)
    (hu : ∀ r ∈ udb.rows, r.id ≠ uid) (ht : ∀ r ∈ tdb.rows, r.id ≠ tid) :
    get_user udb uid = Response.notFound userNotFoundDetail ∧
    (update_user udb uid user).2 = Response.notFound userNotFoundDetail ∧
    (delete_user udb uid).2 = Response.notFound userNotFoundDetail ∧
    get_todo tdb tid = Response.notFound todoNotFoundDetail ∧
    (update_todo tdb tid todo).2 = Response.notFound todoNotFoundDetail ∧
    (delete_todo tdb tid).2 = Response.notFound todoDeleteNotFoundDetail := by
  have hfu : udb.rows.find? (fun r => r.id == uid) = none :=
    List.find?_eq_none.mpr (fun r hr => by simpa using hu r hr)
  have hau : udb.rows.any (fun r => r.id == uid) = false := by
    rw [List.any_eq_false]
    intro r hr
    simpa using hu r hr
  have hft : tdb.rows.find? (fun r => r.id == tid) = none :=
    List.find?_eq_none.mpr (fun r hr => by simpa using ht r hr)
  have hat : tdb.rows.any (fun r => r.id == tid) = false := by
    rw [List.any_eq_false]
    intro r hr
    simpa using ht r hr
  refine ⟨?_, ?_, ?_, ?_, ?_, ?_⟩
  · unfold get_user selectUserSql
    rw [hfu]
  · simp [update_user, updateUserSql, hau, intTruthy]
  · simp [delete_user, deleteUserSql, hau, intTruthy]
  · unfold get_todo selectTodoSql
    rw [hft]
  · simp [update_todo, updateTodoSql, hat, intTruthy]
  · simp [delete_todo, deleteTodoSql, hat, intTruthy]

/-- C2 witness: all six operations on empty tables at ids 5 and 7. -/
theorem missing_id_not_found_w :
    get_user ⟨[], 1⟩ 5 = Response.notFound userNotFoundDetail ∧
    (update_user ⟨[], 1⟩ 5 ⟨"x", "y"⟩).2 = Response.notFound userNotFoundDetail ∧
    (delete_user ⟨[], 1⟩ 5).2 = Response.notFound userNotFoundDetail ∧
    get_todo ⟨[], 1⟩ 7 = Response.notFound todoNotFoundDetail ∧
    (update_todo ⟨[], 1⟩ 7 ⟨"t", "d", false⟩).2 = Response.notFound todoNotFoundDetail ∧
    (delete_todo ⟨[], 1⟩ 7).2 = Response.notFound todoDeleteNotFoundDetail :=
  missing_id_not_found ⟨[], 1⟩ ⟨[], 1⟩ 5 7 ⟨"x", "y"⟩ ⟨"t", "d", false⟩
    (fun r hr => by simp at hr) (fun r hr => by simp at hr)

/-- C3: a successful DELETE of a user id followed by a GET on the same id
yields NotFound: the delete removed every row with that id. -/
theorem delete_then_read_not_found (db db2 : UsersDb) (uid : Int) (m : String)
    (h : delete_user db uid = (db2, Response.ok m)) :
    get_user db2 uid = Response.notFound userNotFoundDetail := by
  have hdb2 : db2 = { db with rows := db.rows.filter fun r => r.id != uid } := by
    have hfst := congrArg Prod.fst h
    rw [delete_user_state] at hfst
    exact hfst.symm
  rw [hdb2]
  unfold get_user selectUserSql
  have hfind : (db.rows.filter fun r => r.id != uid).find? (fun r => r.id == uid) = none := by
    refine List.find?_eq_none.mpr (fun r hr => ?_)
    have hne := (List.mem_filter.mp hr).2
    simp only [bne_iff_ne, ne_eq] at hne
    simpa using hne
  rw [show ({ db with rows := db.rows.filter fun r => r.id != uid } : UsersDb).rows
      = db.rows.filter fun r => r.id != uid from rfl, hfind]

/-- C3 witness: a table holding only user 1, deleted then read. -/
theorem delete_then_read_not_found_w :
    get_user ⟨[], 2⟩ 1 = Response.notFound userNotFoundDetail :=
  delete_then_read_not_found ⟨[⟨1, "bob", "b@example.com"⟩], 2⟩ ⟨[], 2⟩ 1
    userDeletedMsg rfl

/-- C4: every successful update (users and todos) responds with the submitted
input fields and an id equal to the path id. -/
theorem update_response_id_eq_path_id (udb udb2 : UsersDb) (tdb tdb2 : TodosDb)
    (uid tid : Int) (user : UserCreate) (todo : Todo) (ru : UserReturn) (rt : TodoReturn)
    (hu : update_user udb uid user = (udb2, Response.ok ru))
    (ht : update_todo tdb tid todo = (tdb2, Response.ok rt)) :
    ru = ⟨uid, user.username, user.email⟩ ∧
      rt = ⟨tid, todo.title, todo.description, todo.is_complited⟩ :=
  ⟨update_user_ok_id udb udb2 uid user ru hu, update_todo_ok_id tdb tdb2 tid todo rt ht⟩

/-- C4 witness: successful updates of user 1 and todo 2. -/
theorem update_response_id_eq_path_id_w :
    (⟨1, "x", "y"⟩ : UserReturn) = ⟨1, "x", "y"⟩ ∧
      (⟨2, "t", "d", true⟩ : TodoReturn) = ⟨2, "t", "d", true⟩ :=
  update_response_id_eq_path_id ⟨[⟨1, "a", "b"⟩], 2⟩ ⟨[⟨1, "x", "y"⟩], 2⟩
    ⟨[⟨2, "t0", "d0", false⟩], 3⟩ ⟨[⟨2, "t", "d", true⟩], 3⟩ 1 2 ⟨"x", "y"⟩
    ⟨"t", "d", true⟩ ⟨1, "x", "y"⟩ ⟨2, "t", "d", true⟩ rfl rfl

/-- C5 (amended): a Feedback message is rejected whenever a blocklisted stem
occurs with one more Cyrillic letter right after it (case-insensitively); a
message of 9 characters is rejected as below the 10-character minimum; and a
message of exactly 10 characters containing no blocklisted stem is accepted. -/
theorem feedback_message_validation_amended :
    (∀ msg : List Char, StemFollowedOccurs msg → feedbackMessageAccepted msg = false) ∧
    (∀ msg : List Char, msg.length = 9 → feedbackMessageAccepted msg = false) ∧
    (∀ msg : List Char, msg.length = 10 → ¬ ContainsStemCI msg →
      feedbackMessageAccepted msg = true) := by
  refine ⟨?_, ?_, ?_⟩
  · intro msg hocc
    have hb : hasBlockedWord (msg.map ruLower) = true := by
      rcases hocc with ⟨st, hst, l, c, r, hc, ht⟩
      exact (hasBlockedWord_iff _).mpr ⟨st, hst, l, c, r, hc, ht⟩
    unfold feedbackMessageAccepted validate_message
    rw [hb]
    simp
  · intro msg h9
    unfold feedbackMessageAccepted
    rw [h9]
    simp
  · intro msg h10 hns
    have hb : hasBlockedWord (msg.map ruLower) = false := by
      cases hbb : hasBlockedWord (msg.map ruLower) with
      | false => rfl
      | true =>
        rcases (hasBlockedWord_iff _).mp hbb with ⟨st, hst, l, c, r, hc, ht⟩
        exact absurd ⟨st, hst, l, c :: r, ht⟩ hns
    unfold feedbackMessageAccepted validate_message
    rw [hb, h10]
    simp

/-- C5 witness: a stem followed by a letter is rejected, a 9-character message
is rejected, a clean 10-character message is accepted. -/
theorem feedback_message_validation_amended_w :
    feedbackMessageAccepted ("он сказал бяка".toList) = false ∧
    feedbackMessageAccepted ("123456789".toList) = false ∧
    feedbackMessageAccepted ("1234567890".toList) = true :=
  ⟨feedback_message_validation_amended.1 _
      ⟨"бяк".toList, by decide, "он сказал ".toList, 'а', [], by decide, by decide⟩,
    feedback_message_validation_amended.2.1 _ (by decide),
    feedback_message_validation_amended.2.2 _ (by decide)
      (not_containsStem_of_scan _ (by decide))⟩

/-- C5 counterexample: the 13-character message "он сказал бяк" contains the
blocklisted stem "бяк" (at its very end), yet it passes validation, because the
pattern demands one more Cyrillic letter after the stem. -/
theorem blocklist_substring_cex :
    ContainsStemCI ("он сказал бяк".toList) ∧
    feedbackMessageAccepted ("он сказал бяк".toList) = true :=
  ⟨⟨"бяк".toList, by decide, "он сказал ".toList, [], by decide⟩, by decide⟩

/-- C9: the content-policy filter rejects a message exactly when a blocklisted
stem is immediately followed by one more Cyrillic letter; the 10-character
message "ты редиск!" holds the stem "редиск" with no Cyrillic letter after it
and passes validation. -/
theorem blocklist_needs_following_letter :
    (∀ msg : List Char,
        validate_message msg = Except.error "Использование недопустимых слов" ↔
          StemFollowedOccurs msg) ∧
    ContainsStemCI ("ты редиск!".toList) ∧
    feedbackMessageAccepted ("ты редиск!".toList) = true := by
  refine ⟨?_, ⟨"редиск".toList, by decide, "ты ".toList, "!".toList, by decide⟩, by decide⟩
  intro msg
  unfold validate_message
  constructor
  · intro h
    cases hbb : hasBlockedWord (msg.map ruLower) with
    | true => exact (hasBlockedWord_iff (msg.map ruLower)).mp hbb
    | false =>
      rw [hbb] at h
      simp at h
  · intro hocc
    have hb : hasBlockedWord (msg.map ruLower) = true :=
      (hasBlockedWord_iff (msg.map ruLower)).mpr hocc
    rw [hb]
    simp

/-- C6: phone validation of Contact accepts an absent phone, rejects the
5-digit "12345", accepts the 7-digit "1234567", and in general accepts a
present value exactly when it is 7 to 15 digits. -/
theorem contact_phone_validation :
    contactPhoneOk none = true ∧
    contactPhoneOk (some ("12345".toList)) = false ∧
    contactPhoneOk (some ("1234567".toList)) = true ∧
    (∀ s : List Char, contactPhoneOk (some s) = true ↔
      (s.all Char.isDigit = true ∧ 7 ≤ s.length ∧ s.length ≤ 15)) := by
  refine ⟨rfl, by decide, by decide, ?_⟩
  intro s
  unfold contactPhoneOk phonePatternMatches
  simp [Bool.and_eq_true, decide_eq_true_eq, and_assoc]

/-- C7 counterexample: a body with the empty username passes `UserCreate`
validation and reaches storage — the insert runs and the created row carries
the empty username. -/
theorem empty_username_accepted_cex :
    validateUserCreate (some "") (some "a@b.c") = Except.ok ⟨"", "a@b.c"⟩ ∧
    handleCreateUser ⟨[], 1⟩ (some "") (some "a@b.c") =
      (⟨[⟨1, "", "a@b.c"⟩], 2⟩, Response.ok ⟨1, "", "a@b.c"⟩) :=
  ⟨rfl, rfl⟩

/-- C7 (amended): the `UserCreate` model does not require a non-empty username,
for creating and for updating alike: an empty username passes validation, the
create inserts it and responds 200, and the update proceeds to run the UPDATE
statement, rewriting every matching row with the empty username. -/
theorem empty_username_passes_validation (db : UsersDb) (uid : Int) (email : String) :
    validateUserCreate (some "") (some email) = Except.ok ⟨"", email⟩ ∧
    handleCreateUser db (some "") (some email) = create_user db ⟨"", email⟩ ∧
    (create_user db ⟨"", email⟩).2 = Response.ok ⟨db.nextId, "", email⟩ ∧
    handleUpdateUser db uid (some "") (some email) = update_user db uid ⟨"", email⟩ ∧
    (update_user db uid ⟨"", email⟩).1 =
      { db with rows := db.rows.map fun r =>
          if r.id == uid then { r with username := "", email := email } else r } := by
  refine ⟨rfl, rfl, rfl, rfl, ?_⟩
  unfold update_user
  rw [fst_ite_pair]
  rfl

/-- C8: the body of `GET /` is a single-pair object whose key is the literal
string "message: " — with a trailing colon and blank — not "message". -/
theorem read_root_key_literal :
    read_root = [("message: ", "Hello, World!")] ∧
    read_root.map Prod.fst = ["message: "] ∧ ("message: " : String) ≠ "message" :=
  ⟨rfl, rfl, by decide⟩

/-- C10: on a row with id 0, update and delete (users and todos) still execute
the statement — the row is rewritten or removed — yet the handler responds
NotFound, because `if not result` treats the returned id 0 as falsy. -/
theorem zero_id_mutates_yet_not_found (un em ti de : String) (c : Bool)
    (user : UserCreate) (todo : Todo) (n m : Int) :
    update_user ⟨[⟨0, un, em⟩], n⟩ 0 user =
      (⟨[⟨0, user.username, user.email⟩], n⟩, Response.notFound userNotFoundDetail) ∧
    delete_user ⟨[⟨0, un, em⟩], n⟩ 0 = (⟨[], n⟩, Response.notFound userNotFoundDetail) ∧
    update_todo ⟨[⟨0, ti, de, c⟩], m⟩ 0 todo =
      (⟨[⟨0, todo.title, todo.description, todo.is_complited⟩], m⟩,
        Response.notFound todoNotFoundDetail) ∧
    delete_todo ⟨[⟨0, ti, de, c⟩], m⟩ 0 =
      (⟨[], m⟩, Response.notFound todoDeleteNotFoundDetail) :=
  ⟨rfl, rfl, rfl, rfl⟩

end App
